import Mathlib

/-!
Verification development for the ai-therapist-agent-backend repository.

The Lean definitions below are a shallow embedding of the TypeScript source:
  * `src/controllers/chat.ts` — the chat controllers (`createChatSession`,
    `sendMessage`, `getChatSession`, `getChatHistory`, `getAllUserSessions`);
  * `src/middleware/auth.ts` — the `auth` middleware;
  * `src/routes/chat.ts` — routing (every chat route runs `auth` first).

Modelling conventions:
  * MongoDB is modelled as a `List Session` / `List User`; `findOne` is the
    first list element matching the queried field, `save` replaces the first
    session with the same `sessionId`.
  * ObjectId values are modelled by their canonical string representation
    (the code compares `session.userId.toString() !== userId.toString()`,
    i.e. canonical strings).
  * `JSON.parse` is modelled by `jsonParse`, a parser for the JSON grammar
    restricted to integer numeric literals and to the single-character
    string escapes (no \u escapes); every concrete string used in the
    theorems below is inside this fragment, where the model agrees with
    `JSON.parse`.
  * Thrown JavaScript exceptions are modelled as `Except String` values
    carrying the exception's `message` string; `try/catch` is modelled by
    matching on them.
  * Timestamps (`new Date()`) are supplied by the environment as `Nat`.
-/

namespace Backend

/-- JavaScript JSON values (numeric literals restricted to integers). -/
inductive Json where
  | null
  | bool (b : Bool)
  | num (n : Int)
  | str (s : String)
  | arr (elems : List Json)
  | obj (fields : List (String × Json))

/-- JavaScript property access `v.k`: defined (some) only on objects that
contain the key; everything else yields `undefined` (none). -/
def jsGet (v : Json) (k : String) : Option Json :=
  match v with
  | .obj fields => (fields.find? (fun p => p.1 = k)).map Prod.snd
  | _ => none

/-- Whitespace as accepted between JSON tokens and trimmed by JS `trim()`. -/
def isJsWs (c : Char) : Bool :=
  c = ' ' || c = '\n' || c = '\t' || c = '\r'

def skipWs (cs : List Char) : List Char :=
  cs.dropWhile isJsWs

/-- JS `String.prototype.trim` on a character list. -/
def trimChars (l : List Char) : List Char :=
  ((l.dropWhile isJsWs).reverse.dropWhile isJsWs).reverse

/-- JS `String.prototype.trim`. -/
def strTrim (s : String) : String :=
  ⟨trimChars s.data⟩

def isDigit (c : Char) : Bool :=
  '0' ≤ c && c ≤ '9'

/-- Parse a run of decimal digits into a natural number accumulator. -/
def parseDigits : List Char → Nat → Nat × List Char
  | c :: cs, acc =>
    if isDigit c then parseDigits cs (acc * 10 + (c.toNat - '0'.toNat))
    else (acc, c :: cs)
  | [], acc => (acc, [])

/-- Parse the body of a JSON string literal (after the opening quote),
supporting the single-character escapes of JSON. -/
def parseStrBody : List Char → Option (List Char × List Char)
  | [] => none
  | '"' :: cs => some ([], cs)
  | '\\' :: e :: cs =>
    let esc : Option Char :=
      match e with
      | '"' => some '"'
      | '\\' => some '\\'
      | '/' => some '/'
      | 'n' => some '\n'
      | 't' => some '\t'
      | 'r' => some '\r'
      | 'b' => some '\x08'
      | 'f' => some '\x0c'
      | _ => none
    esc.bind (fun d =>
      (parseStrBody cs).map (fun p => (d :: p.1, p.2)))
  | '\\' :: [] => none
  | c :: cs =>
    (parseStrBody cs).map (fun p => (c :: p.1, p.2))

mutual

/-- Fuel-indexed recursive-descent parser for one JSON value. -/
def parseValue : Nat → List Char → Option (Json × List Char)
  | 0, _ => none
  | fuel + 1, cs =>
    match skipWs cs with
    | 'n' :: 'u' :: 'l' :: 'l' :: rest => some (.null, rest)
    | 't' :: 'r' :: 'u' :: 'e' :: rest => some (.bool true, rest)
    | 'f' :: 'a' :: 'l' :: 's' :: 'e' :: rest => some (.bool false, rest)
    | '"' :: rest =>
      (parseStrBody rest).map (fun p => (.str ⟨p.1⟩, p.2))
    | '[' :: rest => parseElems fuel rest
    | '\x7b' :: rest => parseMembers fuel rest
    | '-' :: c :: rest =>
      if isDigit c then
        let p := parseDigits (c :: rest) 0
        some (.num (-(p.1 : Int)), p.2)
      else none
    | c :: rest =>
      if isDigit c then
        let p := parseDigits (c :: rest) 0
        some (.num (p.1 : Int), p.2)
      else none
    | [] => none

/-- Parse the elements of a JSON array (after the opening bracket). -/
def parseElems : Nat → List Char → Option (Json × List Char)
  | 0, _ => none
  | fuel + 1, cs =>
    match skipWs cs with
    | ']' :: rest => some (.arr [], rest)
    | cs' =>
      (parseValue fuel cs').bind (fun p =>
        parseElemsTail fuel p.2 [p.1])

/-- Parse `, value`* `]` continuing a JSON array. -/
def parseElemsTail : Nat → List Char → List Json → Option (Json × List Char)
  | 0, _, _ => none
  | fuel + 1, cs, acc =>
    match skipWs cs with
    | ']' :: rest => some (.arr acc.reverse, rest)
    | ',' :: rest =>
      (parseValue fuel rest).bind (fun p =>
        parseElemsTail fuel p.2 (p.1 :: acc))
    | _ => none

/-- Parse the members of a JSON object (after the opening brace). -/
def parseMembers : Nat → List Char → Option (Json × List Char)
  | 0, _ => none
  | fuel + 1, cs =>
    match skipWs cs with
    | '\x7d' :: rest => some (.obj [], rest)
    | cs' => parseMember fuel cs' []

/-- Parse one `"key" : value` member and continue. -/
def parseMember : Nat → List Char → List (String × Json) → Option (Json × List Char)
  | 0, _, _ => none
  | fuel + 1, cs, acc =>
    match skipWs cs with
    | '"' :: rest =>
      (parseStrBody rest).bind (fun kp =>
        match skipWs kp.2 with
        | ':' :: rest2 =>
          (parseValue fuel rest2).bind (fun vp =>
            match skipWs vp.2 with
            | ',' :: rest3 => parseMember fuel rest3 ((⟨kp.1⟩, vp.1) :: acc)
            | '\x7d' :: rest3 => some (.obj ((⟨kp.1⟩, vp.1) :: acc).reverse, rest3)
            | _ => none)
        | _ => none)
    | _ => none

end

/-- Model of `JSON.parse`: parse one value and require only trailing
whitespace after it. -/
def jsonParse (s : String) : Option Json :=
  match parseValue (2 * s.data.length + 8) s.data with
  | some (v, rest) => if skipWs rest = [] then some v else none
  | none => none

/-- Check whether `p` is a prefix of `l` (Boolean, by direct recursion). -/
def hasPfx : List Char → List Char → Bool
  | [], _ => true
  | _ :: _, [] => false
  | p :: ps, c :: cs => p = c && hasPfx ps cs

/-- Check whether `p` occurs as a contiguous substring of `l`. -/
def hasOccur (p : List Char) : List Char → Bool
  | [] => hasPfx p []
  | c :: cs => hasPfx p (c :: cs) || hasOccur p cs

/-- JS `String.prototype.replace` with a plain-string pattern: replaces only
the first (leftmost) occurrence of `pat`, here with the empty replacement. -/
def replaceFirst (pat : List Char) : List Char → List Char
  | [] => []
  | c :: cs =>
    if hasPfx pat (c :: cs) then (c :: cs).drop pat.length
    else c :: replaceFirst pat cs

/-- Opening sequence recognised by the fence-stripping regex in
`sendMessage` — exactly three backticks, the tag `json`, and a newline. -/
def fenceOpen : List Char := "```json\n".data

/-- Closing sequence recognised by the fence-stripping regex — a newline
followed by exactly three backticks. -/
def fenceClose : List Char := "\n```".data

/-- Fuel-indexed scanner behind `stripFences`; every step consumes at least
one character, so fuel equal to the input length always suffices. -/
def stripFencesF : Nat → List Char → List Char
  | 0, l => l
  | _ + 1, [] => []
  | fuel + 1, c :: cs =>
    if hasPfx fenceOpen (c :: cs) then stripFencesF fuel ((c :: cs).drop 8)
    else if hasPfx fenceClose (c :: cs) then stripFencesF fuel ((c :: cs).drop 4)
    else c :: stripFencesF fuel cs

/-- Model of the global regex replace in `sendMessage`
(`analysisText.replace` of the pattern alternating `fenceOpen` and
`fenceClose` with the empty string): scan left to right; at each position
try the first alternative then the second; on a match, delete it and
continue after it. -/
def stripFences (l : List Char) : List Char :=
  stripFencesF l.length l

/-- String version of `stripFences`. -/
def stripFencesStr (s : String) : String :=
  ⟨stripFences s.data⟩

/-- The whole cleaning pipeline applied to the raw gateway analysis text in
`sendMessage`: `text().trim()`, then the fence-stripping replace, then
`.trim()` again. -/
def cleanAnalysis (raw : String) : String :=
  strTrim (stripFencesStr (strTrim raw))

/-! ## Data model -/

/-- Metadata stored on an assistant turn: the parsed analysis JSON value
plus the condensed progress fields read off it by JS property access
(`undefined`, i.e. `none`, when the parsed value lacks them). -/
structure Meta where
  analysis : Json
  progressEmotionalState : Option Json
  progressRiskLevel : Option Json

/-- One message (turn) of a chat session. -/
structure Msg where
  role : String
  content : String
  timestamp : Nat
  metadata : Option Meta

/-- A chat session document (`ChatSession` model). -/
structure Session where
  sessionId : String
  userId : String
  startTime : Nat
  status : String
  messages : List Msg

/-- A user document, and also the shape of `req.user` set by `auth`
(ObjectId values are modelled by their canonical strings). -/
structure UserRec where
  id : String
  email : String
  name : String

/-- Model of `ChatSession.findOne({ sessionId })`: first stored session with
the given public identifier. -/
def findSession (db : List Session) (sid : String) : Option Session :=
  db.find? (fun s => s.sessionId = sid)

/-- Model of `session.save()` on a loaded document: replace the first
stored session carrying the same public identifier. -/
def updateSession (db : List Session) (sid : String) (s2 : Session) : List Session :=
  match db with
  | [] => []
  | s :: rest => if s.sessionId = sid then s2 :: rest else s :: updateSession rest sid s2

/-- Model of `User.findById`. -/
def findUser (users : List UserRec) (uid : String) : Option UserRec :=
  users.find? (fun u => u.id = uid)

/-! ## Identity verifier (`auth` middleware, src/middleware/auth.ts) -/

/-- A JSON error body as sent by the handlers: optional `message` field,
optional `error` field (each `none` when the field is absent). -/
structure ErrBody where
  message : Option String
  error : Option String

/-- Outcome of the `auth` middleware: an HTTP failure response, or success
(`req.user` populated, `next()` called). -/
inductive AuthResult where
  | failure (status : Nat) (body : ErrBody)
  | success (user : UserRec)

/-- Token extraction in `auth`:
`req.header("Authorization")?.replace("Bearer ", "")` — remove only the
first occurrence of the literal string `"Bearer "`. -/
def extractToken (authHeader : Option String) : Option String :=
  authHeader.map (fun h => (⟨replaceFirst ("Bearer ".data) h.data⟩ : String))

/-- The `auth` middleware. `verify` models `jwt.verify(token, JWT_SECRET)`:
`.ok userId` on a valid token, `.error msg` models the thrown `JsonWebTokenError`
carrying the library's message. An absent header leaves `token` undefined and
an all-prefix header leaves it empty; both are falsy (`if (!token)`). -/
def auth (verify : String → Except String String) (users : List UserRec)
    (authHeader : Option String) : AuthResult :=
  match extractToken authHeader with
  | none => .failure 401 ⟨some "Authentication required", some "No token provided"⟩
  | some t =>
    if t = "" then .failure 401 ⟨some "Authentication required", some "No token provided"⟩
    else
      match verify t with
      | .error m => .failure 401 ⟨some "Invalid authentication token", some m⟩
      | .ok uid =>
        match findUser users uid with
        | none => .failure 401 ⟨some "User not found", some "User account no longer exists"⟩
        | some u => .success u

/-! ## Messaging flow controller (`sendMessage`, src/controllers/chat.ts) -/

/-- Environment of one `sendMessage` request: the outcome of each awaited
external call (`inngest.send`, the two `generateContent` calls,
`session.save()`), with `.error msg` modelling a thrown exception carrying
`msg`, plus the two `new Date()` timestamps taken when the turns are built. -/
structure SendEnv where
  relay : Except String Unit
  analysisGen : Except String String
  replyGen : Except String String
  saveResult : Except String Unit
  tUser : Nat
  tAssistant : Nat

/-- The 200-response body of `sendMessage` (`response`, duplicate `message`,
`analysis`, and the condensed progress metadata). -/
structure SuccessBody where
  response : String
  message : String
  analysis : Json
  progressEmotionalState : Option Json
  progressRiskLevel : Option Json

/-- Outcome of `sendMessage`, one constructor per distinct exit point of the
controller; `serverError` is the catch-all `catch` block (HTTP 500) and
carries the caught exception's message, which the body echoes. -/
inductive SendOutcome where
  | unauthorized
  | sessionNotFound
  | forbidden
  | serverError (errMsg : String)
  | ok (body : SuccessBody)

/-- Stand-in for the message of the `SyntaxError` thrown by `JSON.parse`
on unparseable input (its exact text is runtime-dependent). -/
def jsonSyntaxErrorMsg : String := "Unexpected token in JSON"

/-- The user turn pushed by `sendMessage` (raw message, no metadata). -/
def userTurn (m : String) (t : Nat) : Msg := ⟨"user", m, t, none⟩

/-- The assistant turn pushed by `sendMessage`: trimmed reply text with the
full analysis and condensed progress metadata. -/
def assistantTurn (resp : String) (t : Nat) (an : Json) : Msg :=
  ⟨"assistant", resp, t, some ⟨an, jsGet an "emotionalState", jsGet an "riskLevel"⟩⟩

/-- The `sendMessage` controller. Returns the outcome together with the
resulting store (unchanged unless `session.save()` succeeded). The order of
the matches mirrors the order of the awaited statements in the source:
user check, session load, ownership check, `inngest.send`, analysis
generation, `JSON.parse` of the cleaned text, reply generation, the two
pushes, `session.save()`. -/
def sendMessage (e : SendEnv) (reqUser : Option UserRec) (db : List Session)
    (sessionId message : String) : SendOutcome × List Session :=
  match reqUser with
  | none => (.unauthorized, db)
  | some u =>
    match findSession db sessionId with
    | none => (.sessionNotFound, db)
    | some s =>
      if s.userId ≠ u.id then (.forbidden, db)
      else
        match e.relay with
        | .error m => (.serverError m, db)
        | .ok _ =>
          match e.analysisGen with
          | .error m => (.serverError m, db)
          | .ok rawAnalysis =>
            match jsonParse (cleanAnalysis rawAnalysis) with
            | none => (.serverError jsonSyntaxErrorMsg, db)
            | some an =>
              match e.replyGen with
              | .error m => (.serverError m, db)
              | .ok rawReply =>
                let resp := strTrim rawReply
                let s2 : Session :=
                  { s with messages :=
                      s.messages ++ [userTurn message e.tUser, assistantTurn resp e.tAssistant an] }
                match e.saveResult with
                | .error m => (.serverError m, db)
                | .ok _ =>
                  (.ok ⟨resp, resp, an, jsGet an "emotionalState", jsGet an "riskLevel"⟩,
                   updateSession db sessionId s2)

/-- HTTP status of each `sendMessage` outcome. -/
def sendStatus : SendOutcome → Nat
  | .unauthorized => 401
  | .sessionNotFound => 404
  | .forbidden => 403
  | .serverError _ => 500
  | .ok _ => 200

/-- Error body of each failing `sendMessage` outcome (none on success). -/
def sendErrBody : SendOutcome → Option ErrBody
  | .unauthorized => some ⟨some "Unauthorized - User not authenticated", none⟩
  | .sessionNotFound => some ⟨some "Session not found", none⟩
  | .forbidden => some ⟨some "Unauthorized", none⟩
  | .serverError m => some ⟨some "Error processing message", some m⟩
  | .ok _ => none

/-! ## Session readers (src/controllers/chat.ts) -/

/-- Outcome of `getChatSession` (GET /chat/sessions/:sessionId): the source
performs no `req.user` check and no ownership check — it looks the session
up by id and returns the whole document to any caller that passed `auth`. -/
inductive GetSessionResult where
  | notFound (body : ErrBody)
  | found (s : Session)

/-- The `getChatSession` controller. -/
def getChatSession (db : List Session) (sessionId : String) : GetSessionResult :=
  match findSession db sessionId with
  | none => .notFound ⟨none, some "Chat session not found"⟩
  | some s => .found s

/-- Outcome of `getChatHistory` (GET /chat/sessions/:sessionId/history). -/
inductive HistoryResult where
  | unauthorized
  | notFound
  | forbidden
  | ok (messages : List Msg)

/-- The `getChatHistory` controller: user check, load, ownership check,
then the turn list. -/
def getChatHistory (db : List Session) (reqUser : Option UserRec)
    (sessionId : String) : HistoryResult :=
  match reqUser with
  | none => .unauthorized
  | some u =>
    match findSession db sessionId with
    | none => .notFound
    | some s =>
      if s.userId ≠ u.id then .forbidden
      else .ok s.messages

/-- One element of the `getAllUserSessions` response. -/
structure SessionSummary where
  sessionId : String
  createdAt : Nat
  updatedAt : Nat
  messages : List Msg
  status : String

/-- The per-session formatting in `getAllUserSessions`: `createdAt` is the
start time, `updatedAt` is the last message's timestamp, or the start time
when there are no messages. -/
def summarize (s : Session) : SessionSummary :=
  ⟨s.sessionId, s.startTime,
   match s.messages.getLast? with
   | some m => m.timestamp
   | none => s.startTime,
   s.messages, s.status⟩

/-- The comparison of `.sort({ startTime: -1 })`: descending start time. -/
def byStartTimeDesc (a b : Session) : Bool :=
  decide (b.startTime ≤ a.startTime)

/-- Outcome of `getAllUserSessions` (GET /chat/sessions). -/
inductive ListResult where
  | unauthorized
  | ok (sessions : List SessionSummary)

/-- The `getAllUserSessions` controller: user check, then
`ChatSession.find({ userId }).sort({ startTime: -1 })` followed by the
per-session formatting. -/
def getAllUserSessions (db : List Session) (reqUser : Option UserRec) : ListResult :=
  match reqUser with
  | none => .unauthorized
  | some u =>
    .ok (((db.filter (fun s => s.userId = u.id)).mergeSort byStartTimeDesc).map summarize)

/-! ## Spec-side definition (for refinement comparison only) -/

/-- Written from the spec's words (§3, Analysis Result): an object with a
string `emotionalState`, a string-list `themes`, a numeric `riskLevel`, a
string `recommendedApproach`, and a string-list `progressIndicators`. -/
def specAnalysisShape (j : Json) : Bool :=
  (match jsGet j "emotionalState" with | some (.str _) => true | _ => false) &&
  (match jsGet j "themes" with
   | some (.arr l) => l.all (fun x => match x with | .str _ => true | _ => false)
   | _ => false) &&
  (match jsGet j "riskLevel" with | some (.num _) => true | _ => false) &&
  (match jsGet j "recommendedApproach" with | some (.str _) => true | _ => false) &&
  (match jsGet j "progressIndicators" with
   | some (.arr l) => l.all (fun x => match x with | .str _ => true | _ => false)
   | _ => false)

/-! ## Iterated calls and response-shape predicates -/

/-- Whether a `sendMessage` outcome is the 200 success. -/
def isOk : SendOutcome → Bool
  | .ok _ => true
  | _ => false

/-- Run a sequence of `sendMessage` calls (environment and raw message for
each call) against the store, threading the store through. -/
def runPosts (u : UserRec) (sid : String) : List (SendEnv × String) → List Session → List Session
  | [], db => db
  | (e, m) :: rest, db => runPosts u sid rest (sendMessage e (some u) db sid m).2

/-- Every call of the sequence returns the 200 success on the store state
it actually runs against. -/
def allSucceed (u : UserRec) (sid : String) : List (SendEnv × String) → List Session → Bool
  | [], _ => true
  | (e, m) :: rest, db =>
    isOk (sendMessage e (some u) db sid m).1 &&
      allSucceed u sid rest (sendMessage e (some u) db sid m).2

/-- A turn list that alternates a metadata-free user turn with a
metadata-carrying assistant turn, starting with a user turn. -/
def alternatingUA : List Msg → Bool
  | [] => true
  | _ :: [] => false
  | u :: a :: rest =>
    (u.role == "user") && u.metadata.isNone &&
      (a.role == "assistant") && a.metadata.isSome && alternatingUA rest

/-- The user-turn contents of an alternating turn list, in order. -/
def userContents : List Msg → List String
  | u :: _ :: rest => u.content :: userContents rest
  | _ => []

/-- The `message` field of every `auth` failure body is one of three fixed
strings, and the status is always 401 (the dynamic diagnostic detail sits
in the separate `error` field). -/
def stableAuthMsg : AuthResult → Bool
  | .success _ => true
  | .failure st b =>
    (st == 401) &&
      (b.message == some "Authentication required" ||
       b.message == some "Invalid authentication token" ||
       b.message == some "User not found")

/-- The `message` field of every failing `sendMessage` body is one of four
fixed strings (the dynamic detail sits in the separate `error` field). -/
def stableSendBody (o : SendOutcome) : Bool :=
  match sendErrBody o with
  | none => isOk o
  | some b =>
    b.message == some "Unauthorized - User not authenticated" ||
      b.message == some "Session not found" ||
      b.message == some "Unauthorized" ||
      b.message == some "Error processing message"

/-! ## Helper lemmas -/

theorem findSession_some_sid {db : List Session} {sid : String} {s : Session}
    (h : findSession db sid = some s) : s.sessionId = sid := by
  have := List.find?_some h
  simpa using this

theorem findSession_update {db : List Session} {sid : String} {s s2 : Session}
    (hf : findSession db sid = some s) (hsid : s2.sessionId = sid) :
    findSession (updateSession db sid s2) sid = some s2 := by
  induction db with
  | nil => simp [findSession] at hf
  | cons a rest ih =>
    by_cases ha : a.sessionId = sid
    · simp [updateSession, ha, findSession, List.find?, hsid]
    · simp only [findSession, List.find?, decide_eq_false ha] at hf
      simp only [updateSession, if_neg ha, findSession, List.find?, decide_eq_false ha]
      exact ih hf

theorem hasPfx_append_self (p l : List Char) : hasPfx p (p ++ l) = true := by
  induction p with
  | nil => rfl
  | cons c cs ih => simp [hasPfx, ih]

theorem replaceFirst_append_self (p l : List Char) (hp : p ≠ []) :
    replaceFirst p (p ++ l) = l := by
  cases p with
  | nil => exact absurd rfl hp
  | cons c cs =>
    show replaceFirst (c :: cs) (c :: (cs ++ l)) = l
    rw [replaceFirst]
    have h1 : hasPfx (c :: cs) (c :: (cs ++ l)) = true := hasPfx_append_self (c :: cs) l
    rw [if_pos h1]
    exact List.drop_left (c :: cs) l

theorem replaceFirst_of_no_occur (p : List Char) (l : List Char)
    (h : hasOccur p l = false) : replaceFirst p l = l := by
  induction l with
  | nil => rfl
  | cons c cs ih =>
    simp only [hasOccur, Bool.or_eq_false_iff] at h
    rw [replaceFirst, if_neg (by simp [h.1]), ih h.2]

theorem stripFencesF_nil (f : Nat) : stripFencesF f [] = [] := by
  cases f <;> rfl

theorem hasPfx_cons_ne {a c : Char} (ps cs : List Char) (h : a ≠ c) :
    hasPfx (a :: ps) (c :: cs) = false := by
  simp [hasPfx, h]

theorem stripFencesF_append_close (j : List Char) (hbt : '\x60' ∉ j) :
    ∀ f, j.length + 4 ≤ f → stripFencesF f (j ++ fenceClose) = j := by
  induction j with
  | nil =>
    intro f hf
    cases f with
    | zero => omega
    | succ g =>
      have h1 : stripFencesF (g + 1) (([] : List Char) ++ fenceClose) = stripFencesF g [] := rfl
      rw [h1, stripFencesF_nil]
  | cons c cs ih =>
    intro f hf
    have hc : c ≠ '\x60' := fun h => hbt (h ▸ List.mem_cons_self c cs)
    have hcs : '\x60' ∉ cs := fun h => hbt (List.mem_cons_of_mem c h)
    cases f with
    | zero => omega
    | succ g =>
      show stripFencesF (g + 1) (c :: (cs ++ fenceClose)) = c :: cs
      have ho : hasPfx fenceOpen (c :: (cs ++ fenceClose)) = false := by
        show hasPfx ('\x60' :: "``json\n".data) (c :: (cs ++ fenceClose)) = false
        exact hasPfx_cons_ne _ _ (fun h => hc h.symm)
      have hcl : hasPfx fenceClose (c :: (cs ++ fenceClose)) = false := by
        show hasPfx ('\n' :: "```".data) (c :: (cs ++ fenceClose)) = false
        by_cases hnl : c = '\n'
        · subst hnl
          show (decide ('\n' = '\n') && hasPfx ("```".data) (cs ++ fenceClose)) = false
          cases cs with
          | nil => rfl
          | cons d ds =>
            have hd : d ≠ '\x60' := fun h => hcs (h ▸ List.mem_cons_self d ds)
            have : hasPfx ("```".data) (d :: (ds ++ fenceClose)) = false := by
              show hasPfx ('\x60' :: "``".data) (d :: (ds ++ fenceClose)) = false
              exact hasPfx_cons_ne _ _ (fun h => hd h.symm)
            simp [this]
        · exact hasPfx_cons_ne _ _ (fun h => hnl h.symm)
      rw [stripFencesF, if_neg (by simp [ho]), if_neg (by simp [hcl])]
      have hg : cs.length + 4 ≤ g := by
        simp only [List.length_cons] at hf
        omega
      rw [ih hcs g hg]

theorem stripFences_fenced (j : List Char) (hbt : '\x60' ∉ j) :
    stripFences (fenceOpen ++ (j ++ fenceClose)) = j := by
  unfold stripFences
  have hlen : (fenceOpen ++ (j ++ fenceClose)).length = j.length + 12 := by
    simp [fenceOpen, fenceClose]
  rw [hlen]
  show stripFencesF (j.length + 11 + 1) (fenceOpen ++ (j ++ fenceClose)) = j
  have hww : fenceOpen ++ (j ++ fenceClose) =
      '\x60' :: ("``json\n".data ++ (j ++ fenceClose)) := rfl
  rw [hww, stripFencesF]
  rw [if_pos (by simpa [hww] using hasPfx_append_self fenceOpen (j ++ fenceClose))]
  have hdrop : ('\x60' :: ("``json\n".data ++ (j ++ fenceClose))).drop 8 = j ++ fenceClose := by
    show (fenceOpen ++ (j ++ fenceClose)).drop 8 = j ++ fenceClose
    exact List.drop_left' (by rfl)
  rw [hdrop]
  exact stripFencesF_append_close j hbt _ (by omega)

theorem trimChars_eq_self (l : List Char)
    (h1 : ∀ c, l.head? = some c → isJsWs c = false)
    (h2 : ∀ c, l.getLast? = some c → isJsWs c = false) :
    trimChars l = l := by
  unfold trimChars
  have hd : l.dropWhile isJsWs = l := by
    cases l with
    | nil => rfl
    | cons c cs => rw [List.dropWhile_cons, if_neg (by simp [h1 c rfl])]
  rw [hd]
  have hr : l.reverse.dropWhile isJsWs = l.reverse := by
    cases hrev : l.reverse with
    | nil => rfl
    | cons d r =>
      have hdl : l.getLast? = some d := by
        rw [← List.head?_reverse, hrev]
        rfl
      rw [List.dropWhile_cons, if_neg (by simp [h2 d hdl])]
  rw [hr, List.reverse_reverse]

/-- Inversion of a successful `sendMessage` run: success forces the caller,
session, ownership, every external call's success, the response body, and
the exact store update. -/
theorem sendMessage_ok_inv {e : SendEnv} {reqUser : Option UserRec} {db : List Session}
    {sid m : String} {b : SuccessBody} {db2 : List Session}
    (h : sendMessage e reqUser db sid m = (.ok b, db2)) :
    ∃ u s rawA an rawR,
      reqUser = some u ∧
      findSession db sid = some s ∧
      s.userId = u.id ∧
      e.relay = .ok () ∧
      e.analysisGen = .ok rawA ∧
      jsonParse (cleanAnalysis rawA) = some an ∧
      e.replyGen = .ok rawR ∧
      e.saveResult = .ok () ∧
      b = ⟨strTrim rawR, strTrim rawR, an, jsGet an "emotionalState", jsGet an "riskLevel"⟩ ∧
      db2 = updateSession db sid
        { s with messages := s.messages ++
            [userTurn m e.tUser, assistantTurn (strTrim rawR) e.tAssistant an] } := by
  cases reqUser with
  | none => simp [sendMessage] at h
  | some u =>
    cases hf : findSession db sid with
    | none => simp [sendMessage, hf] at h
    | some s =>
      by_cases hown : s.userId = u.id
      · cases hrel : e.relay with
        | error msg => simp [sendMessage, hf, hown, hrel] at h
        | ok uu =>
          cases hag : e.analysisGen with
          | error msg => simp [sendMessage, hf, hown, hrel, hag] at h
          | ok rawA =>
            cases hp : jsonParse (cleanAnalysis rawA) with
            | none => simp [sendMessage, hf, hown, hrel, hag, hp] at h
            | some an =>
              cases hrg : e.replyGen with
              | error msg => simp [sendMessage, hf, hown, hrel, hag, hp, hrg] at h
              | ok rawR =>
                cases hsv : e.saveResult with
                | error msg => simp [sendMessage, hf, hown, hrel, hag, hp, hrg, hsv] at h
                | ok uu2 =>
                  simp only [sendMessage, hf, hown, hrel, hag, hp, hrg, hsv,
                    ne_eq, not_true_eq_false, if_false, ite_false,
                    Prod.mk.injEq, SendOutcome.ok.injEq] at h
                  obtain ⟨h1, h2⟩ := h
                  refine ⟨u, s, rawA, an, rawR, rfl, rfl, hown, ?_, rfl, hp, rfl, ?_,
                    h1.symm, ?_⟩
                  · cases uu
                    rfl
                  · cases uu2
                    rfl
                  · rw [hown]
                    exact h2.symm
      · simp [sendMessage, hf, hown] at h

/-- Invariant of an all-successful call sequence: the final session is the
initial one with one user/assistant pair appended per call, in call order. -/
theorem runPosts_spec (u : UserRec) (sid : String) :
    ∀ (posts : List (SendEnv × String)) (db : List Session) (s : Session),
      findSession db sid = some s → s.userId = u.id →
      allSucceed u sid posts db = true →
      ∃ s2 extra,
        findSession (runPosts u sid posts db) sid = some s2 ∧
        s2.userId = s.userId ∧
        s2.messages = s.messages ++ extra ∧
        extra.length = 2 * posts.length ∧
        alternatingUA extra = true ∧
        userContents extra = posts.map Prod.snd := by
  intro posts
  induction posts with
  | nil =>
    intro db s hf hown _
    exact ⟨s, [], by simpa [runPosts] using hf, rfl, by simp, rfl, rfl, rfl⟩
  | cons p rest ih =>
    obtain ⟨e, m⟩ := p
    intro db s hf hown hsucc
    simp only [allSucceed, Bool.and_eq_true] at hsucc
    obtain ⟨hok, hrest⟩ := hsucc
    cases hsm : sendMessage e (some u) db sid m with
    | mk o db2 =>
      cases o with
      | unauthorized => rw [hsm] at hok; simp [isOk] at hok
      | sessionNotFound => rw [hsm] at hok; simp [isOk] at hok
      | forbidden => rw [hsm] at hok; simp [isOk] at hok
      | serverError msg => rw [hsm] at hok; simp [isOk] at hok
      | ok b =>
        obtain ⟨u2, s2, rawA, an, rawR, hu, hf2, hown2, hrelE, hagE, hpE, hrgE, hsvE, hb, hdb2⟩ :=
          sendMessage_ok_inv hsm
        have hs2 : s2 = s := by
          rw [hf] at hf2
          injection hf2 with h
          exact h.symm
        rw [hs2] at hdb2
        have hsid0 : s.sessionId = sid := findSession_some_sid hf
        have hfind1 : findSession db2 sid =
            some { s with messages := s.messages ++
              [userTurn m e.tUser, assistantTurn (strTrim rawR) e.tAssistant an] } := by
          rw [hdb2]
          exact findSession_update hf hsid0
        have hrest2 : allSucceed u sid rest db2 = true := by
          rw [hsm] at hrest
          exact hrest
        obtain ⟨sf, extra, hfl, hol, hml, hlen, halt, huc⟩ :=
          ih db2 _ hfind1 hown hrest2
        refine ⟨sf, userTurn m e.tUser :: assistantTurn (strTrim rawR) e.tAssistant an :: extra,
          ?_, hol, ?_, ?_, ?_, ?_⟩
        · have hrun : runPosts u sid (⟨e, m⟩ :: rest) db = runPosts u sid rest db2 := by
            simp only [runPosts, hsm]
          rw [hrun]
          exact hfl
        · rw [hml]
          simp
        · simp only [List.length_cons, hlen]
          omega
        · simp only [alternatingUA, userTurn, assistantTurn, halt]
          simp
        · simp only [userContents, huc, userTurn, List.map_cons]

/-! ## Claim theorems -/

/-- C1, counterexample: the claim says every §4 operation returns Forbidden
(403) with no session data when the caller's account id differs from the
session's owner. The fetch-one-session operation (`getChatSession`) ignores
the caller entirely: for the session owned by account "u1" it returns the
full session document — including its messages — to any authenticated
caller, in particular one with account id "u2" ≠ "u1". -/
theorem C1_counterexample :
    getChatSession [⟨"s1", "u1", 0, "active", [⟨"user", "private note", 1, none⟩]⟩] "s1" =
      .found ⟨"s1", "u1", 0, "active", [⟨"user", "private note", 1, none⟩]⟩ ∧
    ("u2" : String) ≠ "u1" :=
  ⟨rfl, by decide⟩

/-- C1, amended: posting a message and fetching a session's turn list return
Forbidden (403) on owner mismatch, with no session data returned and no
store mutation; listing sessions returns only summaries of the caller's own
sessions; fetching one session (`getChatSession`) performs no ownership
check and returns the session to any authenticated caller. -/
theorem C1_amended_ownership (e : SendEnv) (u : UserRec) (db : List Session)
    (sid m : String) (s : Session)
    (hfind : findSession db sid = some s) (hmis : s.userId ≠ u.id) :
    sendMessage e (some u) db sid m = (.forbidden, db) ∧
    sendStatus (sendMessage e (some u) db sid m).1 = 403 ∧
    getChatHistory db (some u) sid = .forbidden ∧
    (∀ l, getAllUserSessions db (some u) = .ok l →
      ∀ x ∈ l, ∃ s0, s0 ∈ db ∧ s0.userId = u.id ∧ x = summarize s0) := by
  have h1 : sendMessage e (some u) db sid m = (.forbidden, db) := by
    simp [sendMessage, hfind, hmis]
  refine ⟨h1, by rw [h1]; rfl, by simp [getChatHistory, hfind, hmis], ?_⟩
  intro l hl x hx
  simp only [getAllUserSessions, ListResult.ok.injEq] at hl
  rw [← hl] at hx
  simp only [List.mem_map] at hx
  obtain ⟨s0, hs0, hxeq⟩ := hx
  rw [List.mem_mergeSort, List.mem_filter] at hs0
  exact ⟨s0, hs0.1, by simpa using hs0.2, hxeq.symm⟩

/-- C1, witness for the amended theorem at a concrete mismatched caller. -/
theorem C1_amended_ownership_witness :
    sendMessage ⟨.ok (), .ok "1", .ok "r", .ok (), 1, 2⟩ (some ⟨"u2", "e", "n"⟩)
        [⟨"s1", "u1", 0, "active", []⟩] "s1" "hi" =
      (.forbidden, [⟨"s1", "u1", 0, "active", []⟩]) ∧
    sendStatus (sendMessage ⟨.ok (), .ok "1", .ok "r", .ok (), 1, 2⟩ (some ⟨"u2", "e", "n"⟩)
        [⟨"s1", "u1", 0, "active", []⟩] "s1" "hi").1 = 403 ∧
    getChatHistory [⟨"s1", "u1", 0, "active", []⟩] (some ⟨"u2", "e", "n"⟩) "s1" = .forbidden ∧
    (∀ l, getAllUserSessions [⟨"s1", "u1", 0, "active", []⟩] (some ⟨"u2", "e", "n"⟩) = .ok l →
      ∀ x ∈ l, ∃ s0, s0 ∈ [⟨"s1", "u1", 0, "active", []⟩] ∧ s0.userId = "u2" ∧
        x = summarize s0) :=
  C1_amended_ownership ⟨.ok (), .ok "1", .ok "r", .ok (), 1, 2⟩ ⟨"u2", "e", "n"⟩
    [⟨"s1", "u1", 0, "active", []⟩] "s1" "hi" ⟨"s1", "u1", 0, "active", []⟩ rfl (by decide)

/-- C2, counterexample: the claim says a valid token whose subject account
no longer exists is rejected with AccountNotFound mapped to HTTP 404. The
middleware returns HTTP 401 on that path, not 404. -/
theorem C2_counterexample :
    auth (fun _ => .ok "u9") ([] : List UserRec) (some "Bearer tok2") =
      .failure 401 ⟨some "User not found", some "User account no longer exists"⟩ ∧
    (401 : Nat) ≠ 404 :=
  ⟨rfl, by decide⟩

/-- C2, amended: a bearer token that validates but whose subject account no
longer exists fails the request with the AccountNotFound classification
(body message "User not found"), mapped to HTTP status 401, not 404. -/
theorem C2_amended_account_not_found (verify : String → Except String String)
    (users : List UserRec) (hdr : Option String) (t uid : String)
    (htok : extractToken hdr = some t) (hne : t ≠ "")
    (hver : verify t = .ok uid) (hnouser : findUser users uid = none) :
    auth verify users hdr =
      .failure 401 ⟨some "User not found", some "User account no longer exists"⟩ := by
  unfold auth
  simp only [htok, if_neg hne, hver, hnouser]

/-- C2, witness for the amended theorem at a concrete token and empty user
store. -/
theorem C2_amended_account_not_found_witness :
    auth (fun _ => .ok "u9") ([] : List UserRec) (some "Bearer tok") =
      .failure 401 ⟨some "User not found", some "User account no longer exists"⟩ :=
  C2_amended_account_not_found (fun _ => .ok "u9") [] (some "Bearer tok") "tok" "u9"
    rfl (by decide) rfl rfl

/-- C3, counterexample: the claim says analysis output that does not parse
as the Analysis Result structure fails the request with GenerationMalformed.
The output "42" is not the Analysis Result shape, yet the request succeeds
(the code only runs `JSON.parse`, it never validates the shape). -/
theorem C3_counterexample :
    (sendMessage ⟨.ok (), .ok "42", .ok "r", .ok (), 1, 2⟩ (some ⟨"u1", "e", "n"⟩)
        [⟨"s1", "u1", 0, "active", []⟩] "s1" "hi").1 =
      .ok ⟨"r", "r", .num 42, none, none⟩ ∧
    jsonParse "42" = some (.num 42) ∧
    specAnalysisShape (.num 42) = false :=
  ⟨rfl, rfl, by decide⟩

/-- C3, amended: analysis output that does not parse as JSON (of any shape)
after cleaning fails the request with the 500 catch-all (the spec's
GenerationMalformed), and the persisted store — hence the session's turn
sequence — is exactly what it was: no user turn, no assistant turn, no
save. -/
theorem C3_amended_malformed_no_append (e : SendEnv) (u : UserRec) (db : List Session)
    (sid m rawA : String) (s : Session)
    (hfind : findSession db sid = some s) (hown : s.userId = u.id)
    (hrel : e.relay = .ok ()) (hag : e.analysisGen = .ok rawA)
    (hbad : jsonParse (cleanAnalysis rawA) = none) :
    sendMessage e (some u) db sid m = (.serverError jsonSyntaxErrorMsg, db) ∧
    sendStatus (sendMessage e (some u) db sid m).1 = 500 := by
  have h1 : sendMessage e (some u) db sid m = (.serverError jsonSyntaxErrorMsg, db) := by
    simp [sendMessage, hfind, hown, hrel, hag, hbad]
  exact ⟨h1, by rw [h1]; rfl⟩

/-- C3, witness for the amended theorem: unparseable analysis text on an
owned session leaves the store untouched and yields the 500 outcome. -/
theorem C3_amended_malformed_no_append_witness :
    sendMessage ⟨.ok (), .ok "not json", .ok "r", .ok (), 1, 2⟩ (some ⟨"u1", "e", "n"⟩)
        [⟨"s1", "u1", 0, "active", []⟩] "s1" "hi" =
      (.serverError jsonSyntaxErrorMsg, [⟨"s1", "u1", 0, "active", []⟩]) ∧
    sendStatus (sendMessage ⟨.ok (), .ok "not json", .ok "r", .ok (), 1, 2⟩
        (some ⟨"u1", "e", "n"⟩) [⟨"s1", "u1", 0, "active", []⟩] "s1" "hi").1 = 500 :=
  C3_amended_malformed_no_append ⟨.ok (), .ok "not json", .ok "r", .ok (), 1, 2⟩
    ⟨"u1", "e", "n"⟩ [⟨"s1", "u1", 0, "active", []⟩] "s1" "hi" "not json"
    ⟨"s1", "u1", 0, "active", []⟩ rfl rfl rfl rfl rfl

/-- C7: the relay call (`await inngest.send`) sits before both
generation-gateway calls and before any mutation; when it throws, the
request terminates with the 500 error carrying the relay failure (the
spec's RelayUnavailable), the store is unchanged (no turns appended, no
save), and the outcome does not depend on the generation-gateway fields of
the environment. -/
theorem C7_relay_failure_terminates (e : SendEnv) (u : UserRec) (db : List Session)
    (sid m emsg : String) (s : Session)
    (hfind : findSession db sid = some s) (hown : s.userId = u.id)
    (hrel : e.relay = .error emsg) :
    sendMessage e (some u) db sid m = (.serverError emsg, db) ∧
    sendStatus (sendMessage e (some u) db sid m).1 = 500 := by
  have h1 : sendMessage e (some u) db sid m = (.serverError emsg, db) := by
    simp [sendMessage, hfind, hown, hrel]
  exact ⟨h1, by rw [h1]; rfl⟩

/-- C7, witness at a concrete relay connectivity failure. -/
theorem C7_relay_failure_terminates_witness :
    sendMessage ⟨.error "relay down", .ok "1", .ok "r", .ok (), 1, 2⟩ (some ⟨"u1", "e", "n"⟩)
        [⟨"s1", "u1", 0, "active", []⟩] "s1" "hi" =
      (.serverError "relay down", [⟨"s1", "u1", 0, "active", []⟩]) ∧
    sendStatus (sendMessage ⟨.error "relay down", .ok "1", .ok "r", .ok (), 1, 2⟩
        (some ⟨"u1", "e", "n"⟩) [⟨"s1", "u1", 0, "active", []⟩] "s1" "hi").1 = 500 :=
  C7_relay_failure_terminates ⟨.error "relay down", .ok "1", .ok "r", .ok (), 1, 2⟩
    ⟨"u1", "e", "n"⟩ [⟨"s1", "u1", 0, "active", []⟩] "s1" "hi" "relay down"
    ⟨"s1", "u1", 0, "active", []⟩ rfl rfl rfl

/-- C4: starting from a session with an empty turn sequence, after N
successful `sendMessage` calls the stored turn sequence has exactly 2N
entries, alternating a metadata-free user turn and a metadata-carrying
assistant turn, with the user turns holding the raw messages in call
order. -/
theorem C4_turn_sequence_shape (u : UserRec) (sid : String) (db : List Session)
    (s : Session) (posts : List (SendEnv × String))
    (hfind : findSession db sid = some s) (hown : s.userId = u.id)
    (hempty : s.messages = [])
    (hsucc : allSucceed u sid posts db = true) :
    ∃ s2, findSession (runPosts u sid posts db) sid = some s2 ∧
      s2.messages.length = 2 * posts.length ∧
      alternatingUA s2.messages = true ∧
      userContents s2.messages = posts.map Prod.snd := by
  obtain ⟨s2, extra, hfl, _, hml, hlen, halt, huc⟩ :=
    runPosts_spec u sid posts db s hfind hown hsucc
  rw [hempty] at hml
  simp only [List.nil_append] at hml
  exact ⟨s2, hfl, by rw [hml, hlen], by rw [hml]; exact halt, by rw [hml]; exact huc⟩

/-- C4, witness: two successful calls against an initially empty session
leave exactly four alternating turns with the two raw messages in order. -/
theorem C4_turn_sequence_shape_witness :
    allSucceed ⟨"u1", "e", "n"⟩ "s1"
        [(⟨.ok (), .ok "1", .ok "ok", .ok (), 1, 2⟩, "hi"),
         (⟨.ok (), .ok "2", .ok "ok2", .ok (), 3, 4⟩, "again")]
        [⟨"s1", "u1", 0, "active", []⟩] = true ∧
    (∃ s2, findSession (runPosts ⟨"u1", "e", "n"⟩ "s1"
        [(⟨.ok (), .ok "1", .ok "ok", .ok (), 1, 2⟩, "hi"),
         (⟨.ok (), .ok "2", .ok "ok2", .ok (), 3, 4⟩, "again")]
        [⟨"s1", "u1", 0, "active", []⟩]) "s1" = some s2 ∧
      s2.messages.length = 4 ∧
      alternatingUA s2.messages = true ∧
      userContents s2.messages = ["hi", "again"]) :=
  ⟨by decide,
   C4_turn_sequence_shape ⟨"u1", "e", "n"⟩ "s1" [⟨"s1", "u1", 0, "active", []⟩]
     ⟨"s1", "u1", 0, "active", []⟩
     [(⟨.ok (), .ok "1", .ok "ok", .ok (), 1, 2⟩, "hi"),
      (⟨.ok (), .ok "2", .ok "ok2", .ok (), 3, 4⟩, "again")]
     rfl rfl rfl (by decide)⟩

/-- C5, counterexample: the claim says stack traces, secret prefixes, and
raw provider/JWT error messages never appear in the response body. The
`auth` middleware echoes the raw JWT library message in the body's `error`
field, and `sendMessage`'s catch block echoes the raw thrown message the
same way. -/
theorem C5_counterexample :
    auth (fun _ => .error "jwt malformed raw provider detail") ([] : List UserRec)
        (some "Bearer x") =
      .failure 401 ⟨some "Invalid authentication token",
        some "jwt malformed raw provider detail"⟩ ∧
    sendErrBody (sendMessage ⟨.error "connect ECONNREFUSED relay host", .ok "1", .ok "r",
        .ok (), 1, 2⟩ (some ⟨"u1", "e", "n"⟩) [⟨"s1", "u1", 0, "active", []⟩] "s1" "hi").1 =
      some ⟨some "Error processing message", some "connect ECONNREFUSED relay host"⟩ :=
  ⟨rfl, rfl⟩

/-- C5, amended: every failing response does carry a stable, fixed `message`
field (three fixed strings for `auth`, four for `sendMessage`) and the
status is fixed per failure kind, but the body's separate `error` field
echoes the raw underlying error message, so provider/JWT detail does reach
the caller; stack traces and secret values are not included. -/
theorem C5_amended_stable_message :
    ∀ (verify : String → Except String String) (users : List UserRec) (hdr : Option String)
      (e : SendEnv) (reqUser : Option UserRec) (db : List Session) (sid m : String),
      stableAuthMsg (auth verify users hdr) = true ∧
      stableSendBody (sendMessage e reqUser db sid m).1 = true := by
  intro verify users hdr e reqUser db sid m
  constructor
  · unfold auth
    cases extractToken hdr with
    | none => rfl
    | some t =>
      dsimp only
      by_cases ht : t = ""
      · rw [if_pos ht]
        rfl
      · rw [if_neg ht]
        cases verify t with
        | error msg => rfl
        | ok uid =>
          dsimp only
          cases findUser users uid with
          | none => rfl
          | some u => rfl
  · unfold sendMessage
    cases reqUser with
    | none => rfl
    | some u =>
      cases findSession db sid with
      | none => rfl
      | some s =>
        dsimp only
        by_cases hown : s.userId = u.id
        · rw [if_neg (by simp [hown])]
          cases e.relay with
          | error msg => rfl
          | ok uu =>
            dsimp only
            cases e.analysisGen with
            | error msg => rfl
            | ok rawA =>
              dsimp only
              cases jsonParse (cleanAnalysis rawA) with
              | none => rfl
              | some an =>
                dsimp only
                cases e.replyGen with
                | error msg => rfl
                | ok rawR =>
                  dsimp only
                  cases e.saveResult with
                  | error msg => rfl
                  | ok uu2 => rfl
        · rw [if_pos hown]
          rfl

/-- C6, counterexample: the claim says any code-fence markup, with or
without a language tag, is stripped before parsing. A well-formed Analysis
Result object wrapped in a fence without the `json` tag is not stripped of
its opening fence (the regex only removes the exact sequences "```json\n"
and "\n```"), so parsing fails and the request ends in the 500 outcome. -/
theorem C6_counterexample :
    jsonParse "\x7b\"emotionalState\":\"calm\",\"themes\":[\"a\"],\"riskLevel\":2,\"recommendedApproach\":\"g\",\"progressIndicators\":[]\x7d" =
      some (.obj [("emotionalState", .str "calm"), ("themes", .arr [.str "a"]),
        ("riskLevel", .num 2), ("recommendedApproach", .str "g"),
        ("progressIndicators", .arr [])]) ∧
    specAnalysisShape (.obj [("emotionalState", .str "calm"), ("themes", .arr [.str "a"]),
        ("riskLevel", .num 2), ("recommendedApproach", .str "g"),
        ("progressIndicators", .arr [])]) = true ∧
    jsonParse (cleanAnalysis ("```\n\x7b\"emotionalState\":\"calm\",\"themes\":[\"a\"],\"riskLevel\":2,\"recommendedApproach\":\"g\",\"progressIndicators\":[]\x7d\n```")) =
      none ∧
    (sendMessage ⟨.ok (), .ok "```\n\x7b\"emotionalState\":\"calm\",\"themes\":[\"a\"],\"riskLevel\":2,\"recommendedApproach\":\"g\",\"progressIndicators\":[]\x7d\n```",
        .ok "r", .ok (), 1, 2⟩ (some ⟨"u1", "e", "n"⟩)
        [⟨"s1", "u1", 0, "active", []⟩] "s1" "hi").1 = .serverError jsonSyntaxErrorMsg :=
  ⟨rfl, by decide, rfl, rfl⟩

/-- C6, amended: only the exact byte sequences "```json\n" and "\n```" are
removed (each occurrence, anywhere in the string); for a gateway output
consisting of a backtick-free payload wrapped in exactly that opening and
closing fence, the cleaning pipeline recovers the payload, and it parses
whenever the trimmed payload parses as JSON. -/
theorem C6_amended_fence_stripping (j : String) (a : Json)
    (hbt : '\x60' ∉ j.data) (hparse : jsonParse (strTrim j) = some a) :
    jsonParse (cleanAnalysis ("```json\n" ++ j ++ "\n```")) = some a := by
  have hdata : ("```json\n" ++ j ++ "\n```").data = fenceOpen ++ (j.data ++ fenceClose) := by
    simp [fenceOpen, fenceClose]
  have hhead : ∀ c, ("```json\n" ++ j ++ "\n```").data.head? = some c → isJsWs c = false := by
    intro c hc
    rw [hdata] at hc
    have : c = '\x60' := by
      have h0 : (fenceOpen ++ (j.data ++ fenceClose)).head? = some '\x60' := rfl
      rw [h0] at hc
      injection hc with h
      exact h.symm
    rw [this]
    rfl
  have hlast : ∀ c, ("```json\n" ++ j ++ "\n```").data.getLast? = some c → isJsWs c = false := by
    intro c hc
    rw [hdata, ← List.append_assoc, List.getLast?_append] at hc
    have h0 : fenceClose.getLast? = some '\x60' := rfl
    rw [h0] at hc
    have : c = '\x60' := by
      injection hc with h
      exact h.symm
    rw [this]
    rfl
  have htrim : strTrim ("```json\n" ++ j ++ "\n```") = "```json\n" ++ j ++ "\n```" := by
    unfold strTrim
    rw [trimChars_eq_self _ hhead hlast]
  unfold cleanAnalysis
  rw [htrim]
  unfold stripFencesStr
  rw [hdata, stripFences_fenced j.data hbt]
  exact hparse

/-- C6, witness for the amended theorem: a correctly "```json"-fenced
well-formed analysis object is stripped and parses. -/
theorem C6_amended_fence_stripping_witness :
    jsonParse (cleanAnalysis ("```json\n" ++ "\x7b\"emotionalState\":\"calm\",\"themes\":[\"a\"],\"riskLevel\":2,\"recommendedApproach\":\"g\",\"progressIndicators\":[]\x7d" ++ "\n```")) =
      some (.obj [("emotionalState", .str "calm"), ("themes", .arr [.str "a"]),
        ("riskLevel", .num 2), ("recommendedApproach", .str "g"),
        ("progressIndicators", .arr [])]) :=
  C6_amended_fence_stripping
    "\x7b\"emotionalState\":\"calm\",\"themes\":[\"a\"],\"riskLevel\":2,\"recommendedApproach\":\"g\",\"progressIndicators\":[]\x7d"
    (.obj [("emotionalState", .str "calm"), ("themes", .arr [.str "a"]),
      ("riskLevel", .num 2), ("recommendedApproach", .str "g"),
      ("progressIndicators", .arr [])])
    (by decide) rfl

/-- C8: a successful `sendMessage` changes the store only by replacing the
loaded session with one whose identifier, owner, creation timestamp and
status are unchanged and whose turn sequence is the old sequence with
exactly one metadata-free user turn (holding the raw message) and one
metadata-carrying assistant turn appended at the end. -/
theorem C8_append_only_frame (e : SendEnv) (reqUser : Option UserRec) (db : List Session)
    (sid m : String) (b : SuccessBody) (db2 : List Session)
    (h : sendMessage e reqUser db sid m = (.ok b, db2)) :
    ∃ s s2, findSession db sid = some s ∧
      db2 = updateSession db sid s2 ∧
      s2.sessionId = s.sessionId ∧
      s2.userId = s.userId ∧
      s2.startTime = s.startTime ∧
      s2.status = s.status ∧
      ∃ ut at2, s2.messages = s.messages ++ [ut, at2] ∧
        ut.role = "user" ∧ ut.content = m ∧ ut.metadata = none ∧
        at2.role = "assistant" ∧ at2.metadata.isSome = true := by
  obtain ⟨u, s, rawA, an, rawR, hu, hf, hown, hrelE, hagE, hpE, hrgE, hsvE, hb, hdb2⟩ :=
    sendMessage_ok_inv h
  exact ⟨s, _, hf, hdb2, rfl, rfl, rfl, rfl, userTurn m e.tUser,
    assistantTurn (strTrim rawR) e.tAssistant an, rfl, rfl, rfl, rfl, rfl, rfl⟩

/-- C8, witness at a concrete successful run. -/
theorem C8_append_only_frame_witness :
    ∃ s s2, findSession [⟨"s1", "u1", 0, "active", []⟩] "s1" = some s ∧
      [⟨"s1", "u1", 0, "active",
        [⟨"user", "hi", 5, none⟩, ⟨"assistant", "r", 6, some ⟨.num 1, none, none⟩⟩]⟩] =
        updateSession [⟨"s1", "u1", 0, "active", []⟩] "s1" s2 ∧
      s2.sessionId = s.sessionId ∧
      s2.userId = s.userId ∧
      s2.startTime = s.startTime ∧
      s2.status = s.status ∧
      ∃ ut at2, s2.messages = s.messages ++ [ut, at2] ∧
        ut.role = "user" ∧ ut.content = "hi" ∧ ut.metadata = none ∧
        at2.role = "assistant" ∧ at2.metadata.isSome = true :=
  C8_append_only_frame ⟨.ok (), .ok "1", .ok "r", .ok (), 5, 6⟩ (some ⟨"u1", "e", "n"⟩)
    [⟨"s1", "u1", 0, "active", []⟩] "s1" "hi" ⟨"r", "r", .num 1, none, none⟩
    [⟨"s1", "u1", 0, "active",
      [⟨"user", "hi", 5, none⟩, ⟨"assistant", "r", 6, some ⟨.num 1, none, none⟩⟩]⟩] rfl

/-- C9: for an authenticated caller the listing returns one summary per
session owned by the caller (a permutation of the summaries of exactly the
owned sessions), sorted by creation time descending, and each summary's
last-activity timestamp is the last turn's timestamp, or the creation
timestamp when the session has no turns. -/
theorem C9_session_listing (db : List Session) (u : UserRec) :
    ∃ l, getAllUserSessions db (some u) = .ok l ∧
      l.Pairwise (fun a b => b.createdAt ≤ a.createdAt) ∧
      l.Perm ((db.filter (fun s => s.userId = u.id)).map summarize) ∧
      ∀ x ∈ l, x.updatedAt =
        (match x.messages.getLast? with
         | some msg => msg.timestamp
         | none => x.createdAt) := by
  refine ⟨_, rfl, ?_, ?_, ?_⟩
  · have htrans : ∀ (a b c : Session),
        byStartTimeDesc a b → byStartTimeDesc b c → byStartTimeDesc a c := by
      intro a b c hab hbc
      simp only [byStartTimeDesc, decide_eq_true_eq] at *
      omega
    have htotal : ∀ (a b : Session), byStartTimeDesc a b || byStartTimeDesc b a := by
      intro a b
      rcases Nat.le_total b.startTime a.startTime with h | h
      · simp [byStartTimeDesc, h]
      · simp [byStartTimeDesc, h]
    have hs := List.sorted_mergeSort htrans htotal (db.filter (fun s => s.userId = u.id))
    rw [List.pairwise_map]
    refine hs.imp ?_
    intro a b hab
    simpa [byStartTimeDesc] using hab
  · exact List.Perm.map summarize (List.mergeSort_perm _ _)
  · intro x hx
    simp only [List.mem_map] at hx
    obtain ⟨s0, _, hxeq⟩ := hx
    rw [← hxeq]
    cases hgl : s0.messages.getLast? with
    | none => simp [summarize, hgl]
    | some msg => simp [summarize, hgl]

/-- C10: the middleware removes only the first occurrence of the literal
"Bearer " from the Authorization header; for any token containing no
occurrence of that literal (every JWT, which cannot contain a space), a
bare-token header authenticates exactly as the prefixed header does. -/
theorem C10_bare_token_equivalence (verify : String → Except String String)
    (users : List UserRec) (t : String)
    (hno : hasOccur ("Bearer ".data) t.data = false) :
    auth verify users (some ("Bearer " ++ t)) = auth verify users (some t) := by
  have h1 : extractToken (some ("Bearer " ++ t)) = some t := by
    show some (⟨replaceFirst ("Bearer ".data) ("Bearer " ++ t).data⟩ : String) = some t
    rw [String.data_append, replaceFirst_append_self _ _ (by decide)]
  have h2 : extractToken (some t) = some t := by
    show some (⟨replaceFirst ("Bearer ".data) t.data⟩ : String) = some t
    rw [replaceFirst_of_no_occur _ _ hno]
  unfold auth
  rw [h1, h2]

/-- C10, witness at a concrete token and verifier. -/
theorem C10_bare_token_equivalence_witness :
    auth (fun s => if s = "abc.def" then .ok "u1" else .error "bad") [⟨"u1", "e", "n"⟩]
        (some ("Bearer " ++ "abc.def")) =
      auth (fun s => if s = "abc.def" then .ok "u1" else .error "bad") [⟨"u1", "e", "n"⟩]
        (some "abc.def") :=
  C10_bare_token_equivalence (fun s => if s = "abc.def" then .ok "u1" else .error "bad")
    [⟨"u1", "e", "n"⟩] "abc.def" (by decide)

end Backend
